import Mathlib

/-!
Verification of the canvas-translation pipeline (extract / merge / validate).

This file gives a shallow embedding, in Lean 4, of the relevant parts of
the JavaScript sources:

  * src/processor/src/extract.js   (extractCanvas and its helpers)
  * src/processor/src/merge.js     (mergeTranslations, transformLanguageInstruction)
  * src/processor/src/validate.js  (validateCanvas, getCoreContextLimit)

JavaScript values are modelled as follows: strings become Lean String
(one JS UTF-16 unit is modelled as one Char; all texts of interest live
in the basic multilingual plane, where the two notions agree), objects
become structures whose optional fields are Option, arrays become List,
and the dynamically typed variable initial value becomes the small sum
type JsVal.  JS truthiness is made explicit per type (a string is truthy
iff nonempty, an object or array iff present, a number iff nonzero).
The wall clock (new Date().toISOString()) is passed in as an explicit
argument, and the token encoder of validate.js, which may be absent at
runtime, is passed as an Option (String to Nat) function.
-/

/-- Truthiness of an optional JS string: present and nonempty. -/
def truthyO : Option String → Bool
  | none => false
  | some s => !(s == "")

/-- Truthiness of an optional JS boolean: present and true. -/
def truthyB : Option Bool → Bool
  | some b => b
  | none => false

/-- Dynamically typed JS value, used for variable initial values. -/
inductive JsVal where
  | jstr (s : String)
  | jnum (n : Int)
  | jbool (b : Bool)
  | jnull
  deriving DecidableEq, Repr

/-- Truthiness of an optional JsVal under the JS rules. -/
def truthyJ : Option JsVal → Bool
  | some (JsVal.jstr s) => !(s == "")
  | some (JsVal.jnum n) => !(n == 0)
  | some (JsVal.jbool b) => b
  | some JsVal.jnull => false
  | none => false

/-- The left brace character, written by code point to keep it out of literals. -/
def lbrace : Char := Char.ofNat 123

/-- The right brace character, written by code point. -/
def rbrace : Char := Char.ofNat 125

/-- First n characters of a string (JS substring(0, n) / slice(0, n)). -/
def jsTake (n : Nat) (s : String) : String := String.mk (s.data.take n)

/-- Character count of a string (JS .length on BMP text). -/
def jsLen (s : String) : Nat := s.data.length

/-- Character-wise ASCII lowercasing (JS toLowerCase restricted to the
ASCII range, which is all the source ever lowercases here: var_ tokens). -/
def toLowerStr (s : String) : String := String.mk (s.data.map Char.toLower)

/-- Does pat occur as a leading segment of s? -/
def headMatches : List Char → List Char → Bool
  | [], _ => true
  | _ :: _, [] => false
  | p :: ps, c :: cs => p == c && headMatches ps cs

/-- Does sub occur somewhere inside s (JS String.includes)? -/
def hasSub : List Char → List Char → Bool
  | s, sub =>
    match s with
    | [] => sub.isEmpty
    | _ :: cs => headMatches sub s || hasSub cs sub

/-- JS String.includes on an optional receiver (optional chaining:
an absent receiver yields a falsy result). -/
def optIncludes (o : Option String) (sub : String) : Bool :=
  match o with
  | some s => hasSub s.data sub.data
  | none => false

/-- Replace the first occurrence of pat in a string, as a list of
characters; the semantics of JS String.replace with a string pattern
(an empty pattern inserts the replacement at the front). -/
def rfirst (pat rep : List Char) : List Char → List Char
  | [] => if pat.isEmpty then rep else []
  | c :: cs =>
    if headMatches pat (c :: cs) then rep ++ (c :: cs).drop pat.length
    else c :: rfirst pat rep cs

/-- JS text.replace(pattern, replacement) with a plain string pattern
(the replacement strings used by the source contain no dollar escapes). -/
def replaceFirst (s pat rep : String) : String :=
  String.mk (rfirst pat.data rep.data s.data)

/-- Is c one of the whitespace characters recognised by the JS regex
class backslash-s (the ASCII ones plus NBSP; the exotic Unicode spaces
do not occur in variable names)? -/
def isJsWs (c : Char) : Bool :=
  c == ' ' || c == '\t' || c == '\n' || c == '\r' ||
  c == Char.ofNat 11 || c == Char.ofNat 12 || c == Char.ofNat 160

/-- Collapse every maximal run of whitespace into a single underscore;
the Bool argument records whether the previous character was whitespace.
This is JS name.replace(whitespace-run regex, underscore) with the global flag. -/
def squashWsGo : Bool → List Char → List Char
  | _, [] => []
  | prevWs, c :: cs =>
    if isJsWs c then
      if prevWs then squashWsGo true cs else '_' :: squashWsGo true cs
    else c :: squashWsGo false cs

/-- Replace whitespace runs by underscores in a string. -/
def underscoreSpaces (s : String) : String := String.mk (squashWsGo false s.data)

/-- JS String.trim: strip whitespace from both ends. -/
def jsTrim (s : String) : String :=
  String.mk (((s.data.dropWhile isJsWs).reverse.dropWhile isJsWs).reverse)

/-- First truthy string among the options, else the default
(the JS chain a or-else b or-else c or-else d). -/
def firstTruthy : List (Option String) → String → String
  | [], dflt => dflt
  | o :: rest, dflt => if truthyO o then o.getD "" else firstTruthy rest dflt

/-! ## Data model (canvas-export JSON) -/

/-- The advancedSettings object of a story node (validate.js lines 48-64);
absent boolean fields of the JS object are modelled as false, since both
are falsy. -/
structure AdvancedSettings where
  disableDynamicMemory : Bool := false
  disableAutoPlotCompression : Bool := false
  disableMacroPromptInjections : Bool := false
  disableDefaultContentPolicy : Bool := false
  disableDefaultSystemInstructions : Bool := false
  disableNarrationCue : Bool := false
  disableDialogueCue : Bool := false
  deriving DecidableEq, Repr

/-- One lorebook entry (fields read by the pipeline: key and text). -/
structure Entry where
  key : Option String := none
  text : Option String := none
  deriving DecidableEq, Repr

/-- One image of an image node; payload stands for the image fields the
pipeline never reads or writes (src and friends), so that preservation
of the rest of the element is expressible. -/
structure Image where
  explain : Option String := none
  payload : String := ""
  deriving DecidableEq, Repr

/-- The projection of an image that extraction puts into a batch and the
batch translator returns: only the explain text. -/
structure TImage where
  explain : Option String := none
  deriving DecidableEq, Repr

/-- Result of detectLanguageInstruction (extract.js lines 22-51): the JS
object has lang and pattern only when found; here they default to the
empty string in the not-found case, which compares unequal to every
language code and never reaches the replace call. -/
structure LangInstr where
  found : Bool := false
  lang : String := ""
  pattern : String := ""
  deriving DecidableEq, Repr

/-- One node of metadataSet.  The JS object is polymorphic on type with
optional fields; an absent type is modelled as the empty string (it then
matches no switch case, exactly like undefined). -/
structure NodeMeta where
  type : String := ""
  name : Option String := none
  title : Option String := none
  text : Option String := none
  variableName : Option String := none
  initialValue : Option JsVal := none
  coreContext : Option String := none
  prologue : Option String := none
  prologueGuide : Option String := none
  statusTitle : Option String := none
  htmlContent : Option String := none
  achievementName : Option String := none
  description : Option String := none
  advancedSettings : Option AdvancedSettings := none
  entries : Option (List Entry) := none
  images : Option (List Image) := none
  deriving DecidableEq, Repr

/-- The inner canvas object; tagCategorization and the remaining fields
(nodes, connections, ...) are opaque to the pipeline, so the former is an
opaque optional blob and the latter are bundled into payload. -/
structure CanvasInfo where
  canvasLanguage : Option String := none
  tagCategorization : Option String := none
  payload : String := ""
  deriving DecidableEq, Repr

/-- A canvas-export document.  metadataSet is an association list of
uid / metadata pairs in JS object iteration order (string keys keep
insertion order); translatedFrom and translatedTo are absent before the
first merge; payload stands for any further top-level export fields the
pipeline only deep-clones. -/
structure Canvas where
  canvas : CanvasInfo := {}
  metadataSet : List (String × NodeMeta) := []
  exportedAt : String := ""
  translatedFrom : Option String := none
  translatedTo : Option String := none
  payload : String := ""
  deriving DecidableEq, Repr

/-- One item of a batch: the projection extraction builds for a node, and
also the shape of the items the batch translator sends back (merge.js
reads exactly these fields off a translated item). -/
structure BatchItem where
  uid : String := ""
  type : String := ""
  name : Option String := none
  title : Option String := none
  text : Option String := none
  coreContext : Option String := none
  prologue : Option String := none
  prologueGuide : Option String := none
  advancedSettings : Option AdvancedSettings := none
  variableName : Option String := none
  initialValue : Option JsVal := none
  initialValueIsEnglish : Option Bool := none
  languageInstruction : Option LangInstr := none
  entries : Option (List Entry) := none
  images : Option (List TImage) := none
  statusTitle : Option String := none
  htmlContent : Option String := none
  achievementName : Option String := none
  description : Option String := none
  deriving DecidableEq, Repr

/-- The six batch buckets produced by extraction (extract.js lines 167-174). -/
structure Batches where
  storyCore : List BatchItem := []
  «variables» : List BatchItem := []
  characters : List BatchItem := []
  characterText : List BatchItem := []
  content : List BatchItem := []
  system : List BatchItem := []
  deriving DecidableEq, Repr

/-- The translated batches handed to merge; any bucket may be absent
(merge.js line 62 skips absent buckets). -/
structure TranslatedBatches where
  storyCore : Option (List BatchItem) := none
  «variables» : Option (List BatchItem) := none
  characters : Option (List BatchItem) := none
  characterText : Option (List BatchItem) := none
  content : Option (List BatchItem) := none
  system : Option (List BatchItem) := none
  deriving DecidableEq, Repr

/-- The _meta part of the extraction context consumed by merge. -/
structure CtxMeta where
  sourceLang : Option String := none
  deriving DecidableEq, Repr

/-- The extraction context consumed by merge (merge.js lines 127-137):
only tagCategorization and _meta.sourceLang are read. -/
structure Context where
  _meta : CtxMeta := {}
  tagCategorization : Option String := none
  deriving DecidableEq, Repr

/-! ## extract.js -/

/-- Is c an ASCII punctuation character of the Unicode P category (the
members of the JS class backslash-p-P that fall in the ASCII range; the
non-ASCII punctuation blocks are not needed by any claim). -/
def isPunctJs (c : Char) : Bool :=
  let v := c.val
  (0x21 ≤ v && v ≤ 0x23) || v == 0x25 || v == 0x26 || v == 0x27 ||
  (0x28 ≤ v && v ≤ 0x2A) || (0x2C ≤ v && v ≤ 0x2F) || v == 0x3A ||
  v == 0x3B || v == 0x3F || v == 0x40 || (0x5B ≤ v && v ≤ 0x5D) ||
  v == 0x5F || v == 0x7B || v == 0x7D

/-- Is c an ASCII letter (the JS class a-zA-Z)? -/
def isAsciiLetter (c : Char) : Bool :=
  (0x41 ≤ c.val && c.val ≤ 0x5A) || (0x61 ≤ c.val && c.val ≤ 0x7A)

/-- Detect if text is primarily English (extract.js lines 11-16): the
count of ASCII letters over the count of characters that are neither
whitespace, digits nor punctuation must exceed 0.7.  The JS floating
division compared against the literal 0.7 is modelled by the exact
rational comparison 10 times letters greater than 7 times total, which
agrees with the float comparison for every ratio with a denominator far
below 10 to the 15. -/
def isEnglishText (text : String) : Bool :=
  if text == "" then false
  else
    let englishChars := (text.data.filter isAsciiLetter).length
    let totalChars := (text.data.filter (fun c => !(isJsWs c || c.isDigit || isPunctJs c))).length
    decide (0 < totalChars) && decide (7 * totalChars < 10 * englishChars)

/-- Scan of metadataSet for the first story node with a truthy
coreContext (extract.js lines 79-85): substring(0, 500) plus an ellipsis
when the context is longer than 500 characters; the empty string when no
such node exists. -/
def storySummaryGo : List (String × NodeMeta) → String
  | [] => ""
  | (_, m) :: rest =>
    if m.type == "story" && truthyO m.coreContext then
      let cc := m.coreContext.getD ""
      jsTake 500 cc ++ (if 500 < jsLen cc then "..." else "")
    else storySummaryGo rest

/-- The storySummary field of the translation context. -/
def extractStorySummary (c : Canvas) : String := storySummaryGo c.metadataSet

/-- Names of the character registry (extract.js lines 88-100): every
character node with a truthy name, in scan order.  The JS registry is an
object keyed by name; only membership of a name matters to the claims,
so duplicates are harmless here. -/
def charNames (c : Canvas) : List String :=
  c.metadataSet.filterMap (fun p =>
    if p.2.type == "character" && truthyO p.2.name then p.2.name else none)

/-- The projection common to every batch item (extract.js lines 178-183). -/
def baseNode (uid : String) (m : NodeMeta) : BatchItem :=
  { uid := uid, type := m.type,
    name := if truthyO m.name then m.name else none,
    title := if truthyO m.title then m.title else none }

/-- Does the node carry at least one truthy field beyond uid, type, name
and title (extract.js lines 277-279)? -/
def hasContent (n : BatchItem) : Bool :=
  truthyO n.text || truthyO n.coreContext || truthyO n.prologue ||
  truthyO n.prologueGuide || n.advancedSettings.isSome ||
  truthyO n.variableName || truthyJ n.initialValue ||
  truthyB n.initialValueIsEnglish || n.languageInstruction.isSome ||
  n.entries.isSome || n.images.isSome || truthyO n.statusTitle ||
  truthyO n.htmlContent || truthyO n.achievementName || truthyO n.description

/-- The switch of the categorization loop (extract.js lines 185-274):
yields the chosen batch name, when any, and the projected node.  The
language-instruction detector is passed in as a function parameter (its
pattern library is exercised by no claim, so the theorems below hold for
every detector). -/
def categorizeCore (chars : List String) (detect : String → LangInstr)
    (uid : String) (m : NodeMeta) : Option String × BatchItem :=
  let node := baseNode uid m
  match m.type with
    | "character" =>
      (some "characters", if truthyO m.text then { node with text := m.text } else node)
    | "story" =>
      let node := if truthyO m.coreContext then { node with coreContext := m.coreContext } else node
      let node := if truthyO m.prologue then { node with prologue := m.prologue } else node
      let node := if truthyO m.prologueGuide then { node with prologueGuide := m.prologueGuide } else node
      let node := if truthyO m.text then { node with text := m.text } else node
      let node := if m.advancedSettings.isSome then { node with advancedSettings := m.advancedSettings } else node
      (some "storyCore", node)
    | "text" =>
      let node := if truthyO m.text then { node with text := m.text } else node
      let isCharacterText := chars.any (fun nm => optIncludes m.name nm || optIncludes m.title nm)
      (some (if isCharacterText then "characterText" else "content"), node)
    | "updateRule" =>
      let node :=
        if truthyO m.text then
          let node := { node with text := m.text }
          let langInstr := detect (m.text.getD "")
          if langInstr.found then { node with languageInstruction := some langInstr } else node
        else node
      (some "content", node)
    | "variable" =>
      if truthyO m.variableName then
        let node := { node with variableName := m.variableName }
        let node :=
          match m.initialValue with
          | some (JsVal.jstr s) =>
            if !(jsTrim s == "") then
              { node with initialValue := some (JsVal.jstr s),
                          initialValueIsEnglish := some (isEnglishText s) }
            else node
          | _ => node
        (some "variables", node)
      else (none, node)
    | "user" =>
      (some "system", if truthyO m.text then { node with text := m.text } else node)
    | "lorebook" =>
      (some "content", if m.entries.isSome then { node with entries := m.entries } else node)
    | "achievement" =>
      let node := if truthyO m.achievementName then { node with achievementName := m.achievementName } else node
      let node := if truthyO m.description then { node with description := m.description } else node
      (some "system", node)
    | "statusView" =>
      let node := if truthyO m.statusTitle then { node with statusTitle := m.statusTitle } else node
      let node := if truthyO m.htmlContent then { node with htmlContent := m.htmlContent } else node
      (some "system", node)
    | "image" =>
      match m.images with
      | some imgs =>
        let proj := (imgs.map (fun img =>
          ({ explain := if truthyO img.explain then img.explain else none } : TImage))).filter
            (fun ti => ti.explain.isSome)
        (if 0 < proj.length then some "content" else none, { node with images := some proj })
      | none => (none, node)
    | _ => (none, node)

/-- Categorization of one metadata node (extract.js lines 177-283): the
switch above followed by the push guard, yielding the target batch name
and the item, or none when the node is assigned to no batch. -/
def categorizeNode (chars : List String) (detect : String → LangInstr)
    (uid : String) (m : NodeMeta) : Option (String × BatchItem) :=
  match categorizeCore chars detect uid m with
  | (none, _) => none
  | (some b, node) =>
    if hasContent node || truthyO node.name || truthyO node.title then some (b, node) else none

/-- Keep the item when categorization assigned it to the named bucket. -/
def bindBatch (b : String) (r : Option (String × BatchItem)) : Option BatchItem :=
  match r with
  | some (b2, n) => if b2 == b then some n else none
  | none => none

/-- The six batch buckets of extraction: one categorization pass over
metadataSet, written per bucket (each bucket keeps scan order, exactly
as the single JS loop that pushes into batches of the matching name). -/
def extractBatches (detect : String → LangInstr) (c : Canvas) : Batches :=
  let cs := charNames c
  { storyCore := c.metadataSet.filterMap (fun p => bindBatch "storyCore" (categorizeNode cs detect p.1 p.2)),
    «variables» := c.metadataSet.filterMap (fun p => bindBatch "variables" (categorizeNode cs detect p.1 p.2)),
    characters := c.metadataSet.filterMap (fun p => bindBatch "characters" (categorizeNode cs detect p.1 p.2)),
    characterText := c.metadataSet.filterMap (fun p => bindBatch "characterText" (categorizeNode cs detect p.1 p.2)),
    content := c.metadataSet.filterMap (fun p => bindBatch "content" (categorizeNode cs detect p.1 p.2)),
    system := c.metadataSet.filterMap (fun p => bindBatch "system" (categorizeNode cs detect p.1 p.2)) }

/-- The outputs of extractCanvas that the claims mention: the story
summary of the translation context and the six batches.  The glossary
and the remaining context fields play no role in any claim and are
omitted from the embedding. -/
structure ExtractResult where
  storySummary : String := ""
  batches : Batches := {}
  deriving DecidableEq, Repr

/-- Embedding of extractCanvas (extract.js lines 58-306), restricted to
the claim-relevant outputs. -/
def extractCanvas (detect : String → LangInstr) (c : Canvas) : ExtractResult :=
  { storySummary := extractStorySummary c, batches := extractBatches detect c }

/-! ## merge.js -/

/-- One entry of LANG_INSTRUCTION_MAP (merge.js lines 9-22). -/
structure LangEntry where
  instruction : String
  alternatives : List String
  deriving DecidableEq, Repr

/-- LANG_INSTRUCTION_MAP as a lookup (merge.js lines 9-22): the JS index
access with an unknown key yields undefined, modelled as none. -/
def langInstructionMap (l : String) : Option LangEntry :=
  if l == "ko" then
    some { instruction := "한국어로 작성",
           alternatives := ["한글로 작성", "한국어로 출력", "한글로 출력", "in Korean", "using Korean"] }
  else if l == "ja" then
    some { instruction := "日本語で書く",
           alternatives := ["日本語で出力", "日本語で作成", "in Japanese", "using Japanese"] }
  else if l == "en" then
    some { instruction := "Write in English",
           alternatives := ["in English", "using English", "Output in English"] }
  else none

/-- Embedding of transformLanguageInstruction (merge.js lines 28-42):
keep the text whenever it is empty, the marker is absent or not found,
the detected language is English, or the target language is unknown;
otherwise replace the first occurrence of the matched pattern by the
canonical instruction of the target language. -/
def transformLanguageInstruction (text : String) (langInstr : Option LangInstr)
    (targetLang : String) : String :=
  if text == "" then text
  else
    match langInstr with
    | none => text
    | some li =>
      if !li.found then text
      else if li.lang == "en" then text
      else
        match langInstructionMap targetLang with
        | none => text
        | some targetInstr => replaceFirst text li.pattern targetInstr.instruction

/-- The index-aligned image merge of merge.js lines 115-121: walk both
arrays in step up to the shorter length, overwriting explain only where
the translated explain is truthy; surplus original images are returned
unchanged. -/
def mergeImages : List Image → List TImage → List Image
  | imgs, [] => imgs
  | [], _ => []
  | img :: imgs, t :: ts =>
    (if truthyO t.explain then { img with explain := t.explain } else img) :: mergeImages imgs ts

/-- Merge of one translated item into one node (merge.js lines 80-123),
written as one record whose every field mirrors the corresponding
conditional assignment (the JS assignments touch pairwise distinct
fields, so the sequential form and this simultaneous form agree). -/
def mergeNode (m : NodeMeta) (t : BatchItem) (targetLang : String) : NodeMeta :=
  { m with
    name := if truthyO t.name then t.name else m.name,
    title := if truthyO t.title then t.title else m.title,
    text :=
      match t.text with
      | some s =>
        some (if t.languageInstruction.isSome then
                transformLanguageInstruction s t.languageInstruction targetLang
              else s)
      | none => m.text,
    variableName := if truthyO t.variableName then t.variableName else m.variableName,
    initialValue :=
      if t.initialValue.isSome && !truthyB t.initialValueIsEnglish then t.initialValue
      else m.initialValue,
    coreContext := if truthyO t.coreContext then t.coreContext else m.coreContext,
    prologue := if truthyO t.prologue then t.prologue else m.prologue,
    prologueGuide := if truthyO t.prologueGuide then t.prologueGuide else m.prologueGuide,
    statusTitle := if truthyO t.statusTitle then t.statusTitle else m.statusTitle,
    htmlContent := if truthyO t.htmlContent then t.htmlContent else m.htmlContent,
    achievementName := if truthyO t.achievementName then t.achievementName else m.achievementName,
    description := if truthyO t.description then t.description else m.description,
    entries := if t.entries.isSome && m.entries.isSome then t.entries else m.entries,
    images :=
      match t.images, m.images with
      | some ti, some mi => some (mergeImages mi ti)
      | _, _ => m.images }

/-- Concatenation of the batches in the fixed batchOrder of merge.js
line 58 (absent buckets contribute nothing). -/
def allBatchItems (tb : TranslatedBatches) : List BatchItem :=
  tb.storyCore.getD [] ++ tb.«variables».getD [] ++ tb.characters.getD [] ++
  tb.characterText.getD [] ++ tb.content.getD [] ++ tb.system.getD []

/-- The translation map of merge.js lines 57-67: assignment in batch
order means the last item with a given uid wins, hence the lookup runs
over the reversed concatenation. -/
def lookupTranslation (tb : TranslatedBatches) (uid : String) : Option BatchItem :=
  (allBatchItems tb).reverse.find? (fun n => n.uid == uid)

/-- The per-node loop of merge.js lines 73-124: returns the rewritten
metadataSet together with the applied and skipped counters. -/
def mergeLoop (lookup : String → Option BatchItem) (targetLang : String) :
    List (String × NodeMeta) → List (String × NodeMeta) × Nat × Nat
  | [] => ([], 0, 0)
  | (uid, m) :: rest =>
    let r := mergeLoop lookup targetLang rest
    match lookup uid with
    | none => ((uid, m) :: r.1, r.2.1, r.2.2 + 1)
    | some t => ((uid, mergeNode m t targetLang) :: r.1, r.2.1 + 1, r.2.2)

/-- The merge statistics (merge.js lines 141-146). -/
structure MergeStats where
  applied : Nat := 0
  skipped : Nat := 0
  sourceLang : Option String := none
  targetLang : String := ""
  deriving DecidableEq, Repr

/-- Return value of mergeTranslations. -/
structure MergeResult where
  canvas : Canvas := {}
  stats : MergeStats := {}
  deriving DecidableEq, Repr

/-- Embedding of mergeTranslations (merge.js lines 52-148).  The JS
deep clone of the input followed by in-place mutation becomes the pure
construction of a new Canvas value; now is the value of
new Date().toISOString(), passed explicitly. -/
def mergeTranslations (originalCanvas : Canvas) (translatedBatches : TranslatedBatches)
    (context : Context) (targetLang : String) (now : String) : MergeResult :=
  let r := mergeLoop (lookupTranslation translatedBatches) targetLang originalCanvas.metadataSet
  let inner := originalCanvas.canvas
  let inner :=
    { inner with
      tagCategorization :=
        if context.tagCategorization.isSome then context.tagCategorization
        else inner.tagCategorization,
      canvasLanguage := some targetLang }
  { canvas :=
      { originalCanvas with
        canvas := inner,
        metadataSet := r.1,
        exportedAt := now,
        translatedFrom := context._meta.sourceLang,
        translatedTo := some targetLang },
    stats :=
      { applied := r.2.1, skipped := r.2.2,
        sourceLang := context._meta.sourceLang, targetLang := targetLang } }

/-! ## validate.js -/

/-- Is c in one of the Korean Hangul blocks of LANG_PATTERNS.ko? -/
def isHangulChar (c : Char) : Bool :=
  (0xAC00 ≤ c.val && c.val ≤ 0xD7AF) || (0x1100 ≤ c.val && c.val ≤ 0x11FF) ||
  (0x3130 ≤ c.val && c.val ≤ 0x318F)

/-- Is c in the Hiragana or Katakana block of LANG_PATTERNS.ja? -/
def isKanaChar (c : Char) : Bool :=
  (0x3040 ≤ c.val && c.val ≤ 0x309F) || (0x30A0 ≤ c.val && c.val ≤ 0x30FF)

/-- The test of LANG_PATTERNS for a given source language (validate.js
lines 20-24); an unknown language yields false through the optional
chain. -/
def langPatternTest (lang : String) (s : String) : Bool :=
  if lang == "ko" then s.data.any isHangulChar
  else if lang == "ja" then s.data.any isKanaChar
  else if lang == "en" then s.data.all (fun c => c.val ≤ 0x7F)
  else false

/-- Embedding of hasSourceLanguage (validate.js lines 38-41). -/
def hasSourceLanguage (sourceLang : String) (text : String) : Bool :=
  if text == "" then false else langPatternTest sourceLang text

/-- Embedding of countTokens (validate.js lines 43-46) for a present
encoder e. -/
def countTokensWith (e : String → Nat) (text : String) : Nat :=
  if text == "" then 0 else e text

/-- Embedding of getCoreContextLimit (validate.js lines 48-64); the JS
argument is the possibly absent advancedSettings object. -/
def getCoreContextLimit : Option AdvancedSettings → Nat
  | none => 2000
  | some a =>
    let l0 := 2000
    let l1 := if a.disableDynamicMemory then l0 + 800 else l0
    let l2 := if a.disableAutoPlotCompression then l1 + 1200 else l1
    let l3 := if a.disableMacroPromptInjections then l2 + 1200 else l2
    let l4 := if a.disableDefaultContentPolicy then l3 + 800 else l3
    if a.disableDefaultSystemInstructions then
      if a.disableNarrationCue && a.disableDialogueCue then l4 + 1500
      else if a.disableNarrationCue || a.disableDialogueCue then l4 + 1000
      else l4
    else l4

/-- Attempted match of the var-reference regex at the head of the list:
two left braces, the letters of var and an underscore, a nonempty
maximal run of non-right-brace characters (the greedy character class),
then two right braces.  Returns the matched characters and the rest of
the input after the match. -/
def tryVarRefMatch (s : List Char) : Option (List Char × List Char) :=
  match s with
  | a :: b :: v :: a2 :: r :: u :: rest =>
    if a == lbrace && b == lbrace && v == 'v' && a2 == 'a' && r == 'r' && u == '_' then
      let run := rest.takeWhile (fun c => !(c == rbrace))
      if run.isEmpty then none
      else
        match rest.drop run.length with
        | d :: e :: rest2 =>
          if d == rbrace && e == rbrace then
            some (a :: b :: v :: a2 :: r :: u :: (run ++ [d, e]), rest2)
          else none
        | _ => none
    else none
  | _ => none

/-- Left-to-right global scan for the var-reference regex: on a match,
emit it and resume after its end; otherwise advance one character.  The
fuel argument (always the input length) bounds the recursion; each step
consumes at least one character, so the fuel never runs out. -/
def scanVarRefsGo : Nat → List Char → List String
  | 0, _ => []
  | _ + 1, [] => []
  | n + 1, c :: cs =>
    match tryVarRefMatch (c :: cs) with
    | some (mt, rest) => String.mk mt :: scanVarRefsGo n rest
    | none => scanVarRefsGo n cs

/-- All matches of the global var-reference regex of validate.js
line 146, in order. -/
def scanVarRefs (s : String) : List String :=
  scanVarRefsGo s.data.length s.data

/-- The brace-wrapped valid reference tokens, case preserved
(validate.js lines 135-144), one per variable node with a truthy
variableName, in scan order (the JS Set only ever answers membership
queries, so a list with possible duplicates is an equivalent model). -/
def validRefsList (c : Canvas) : List String :=
  c.metadataSet.filterMap (fun p =>
    if p.2.type == "variable" && truthyO p.2.variableName then
      some (String.mk [lbrace, lbrace] ++ "var_" ++ underscoreSpaces (p.2.variableName.getD "") ++
            String.mk [rbrace, rbrace])
    else none)

/-- The lowercased valid reference names without braces (validate.js
line 140 adds refLower, the lowercase of var_ plus the underscored
name). -/
def validRefsLowerList (c : Canvas) : List String :=
  c.metadataSet.filterMap (fun p =>
    if p.2.type == "variable" && truthyO p.2.variableName then
      some (toLowerStr ("var_" ++ underscoreSpaces (p.2.variableName.getD "")))
    else none)

/-- JS ref.slice(2, -2): strip the outer braces of a matched token. -/
def sliceInner (ref : String) : String :=
  let l := ref.data.drop 2
  String.mk (l.take (l.length - 2))

/-- Is ref accepted by the reference-consistency check: either exactly a
valid token, or case-insensitively equal to a valid name (validate.js
line 157)? -/
def isValidRef (c : Canvas) (ref : String) : Bool :=
  (validRefsList c).contains ref || (validRefsLowerList c).contains (toLowerStr (sliceInner ref))

/-- The four fields scanned by the reference-consistency check, truthy
ones only, in source order (validate.js lines 149-152). -/
def refTextFields (m : NodeMeta) : List String :=
  [m.text, m.coreContext, m.prologue, m.prologueGuide].filterMap (fun o =>
    match o with
    | some s => if s == "" then none else some s
    | none => none)

/-- One finding of the untranslated-text check. -/
structure UntransItem where
  uid8 : String := ""
  nodeType : String := ""
  nodeName : String := ""
  field : String := ""
  preview : String := ""
  deriving DecidableEq, Repr

/-- One finding of the reference-consistency check. -/
structure InvalidRefItem where
  uid8 : String := ""
  nodeType : String := ""
  nodeName : String := ""
  ref : String := ""
  deriving DecidableEq, Repr

/-- One finding of the token-budget check. -/
structure OverLimitItem where
  uid8 : String := ""
  nodeType : String := ""
  nodeName : String := ""
  field : String := ""
  tokens : Nat := 0
  limit : Nat := 0
  over : Nat := 0
  deriving DecidableEq, Repr

/-- The 40-character preview with newlines flattened to spaces
(validate.js line 95). -/
def preview40 (s : String) : String :=
  String.mk ((s.data.take 40).map (fun c => if c == '\n' then ' ' else c))

/-- The ten flat fields of the untranslated-text check, with their JS
names, in source order (validate.js lines 83-86). -/
def fieldsToCheck : List (String × (NodeMeta → Option String)) :=
  [("text", NodeMeta.text), ("name", NodeMeta.name), ("title", NodeMeta.title),
   ("variableName", NodeMeta.variableName), ("coreContext", NodeMeta.coreContext),
   ("prologue", NodeMeta.prologue), ("prologueGuide", NodeMeta.prologueGuide),
   ("statusTitle", NodeMeta.statusTitle), ("achievementName", NodeMeta.achievementName),
   ("description", NodeMeta.description)]

/-- The untranslated findings of one node: the ten flat fields, then the
nested image explains, then the nested lorebook entries (validate.js
lines 80-131). -/
def untransItemsNode (sourceLang : String) (uid : String) (m : NodeMeta) : List UntransItem :=
  let nodeName := firstTruthy [m.name, m.title, m.variableName] (jsTake 8 uid)
  (fieldsToCheck.filterMap (fun fc =>
    if truthyO (fc.2 m) && hasSourceLanguage sourceLang ((fc.2 m).getD "") then
      some { uid8 := jsTake 8 uid, nodeType := m.type, nodeName := nodeName,
             field := fc.1, preview := preview40 ((fc.2 m).getD "") }
    else none)) ++
  ((m.images.getD []).enum.filterMap (fun ie =>
    if truthyO ie.2.explain && hasSourceLanguage sourceLang (ie.2.explain.getD "") then
      some { uid8 := jsTake 8 uid, nodeType := "image",
             nodeName := nodeName ++ "[" ++ toString ie.1 ++ "]",
             field := "explain", preview := preview40 (ie.2.explain.getD "") }
    else none)) ++
  ((m.entries.getD []).enum.flatMap (fun ie =>
    [("key", ie.2.key), ("text", ie.2.text)].filterMap (fun fe =>
      if truthyO fe.2 && hasSourceLanguage sourceLang (fe.2.getD "") then
        some { uid8 := jsTake 8 uid, nodeType := "lorebook",
               nodeName := nodeName ++ "[" ++ toString ie.1 ++ "]",
               field := fe.1, preview := preview40 (fe.2.getD "") }
      else none)))

/-- All untranslated findings (check 1 of validateCanvas). -/
def untransItems (sourceLang : String) (c : Canvas) : List UntransItem :=
  c.metadataSet.flatMap (fun p => untransItemsNode sourceLang p.1 p.2)

/-- All invalid-reference findings (check 2 of validateCanvas,
validate.js lines 146-167). -/
def invalidRefItems (c : Canvas) : List InvalidRefItem :=
  c.metadataSet.flatMap (fun p =>
    let nodeName := firstTruthy [p.2.name, p.2.title] (jsTake 8 p.1)
    (refTextFields p.2).flatMap (fun t =>
      ((scanVarRefs t).filter (fun ref => !isValidRef c ref)).map (fun ref =>
        { uid8 := jsTake 8 p.1, nodeType := p.2.type, nodeName := nodeName, ref := ref })))

/-- The checks list built by the type switch of the token-budget check
(validate.js lines 176-194): field name, field value and limit. -/
def tokenChecksFor (m : NodeMeta) : List (String × String × Nat) :=
  match m.type with
  | "character" =>
    if truthyO m.text then [("text", m.text.getD "", 30000)] else []
  | "story" =>
    (if truthyO m.coreContext then
       [("coreContext", m.coreContext.getD "", getCoreContextLimit m.advancedSettings)]
     else []) ++
    (if truthyO m.prologue then [("prologue", m.prologue.getD "", 700)] else []) ++
    (if truthyO m.prologueGuide then [("prologueGuide", m.prologueGuide.getD "", 300)] else []) ++
    (if truthyO m.text then [("text", m.text.getD "", 30000)] else [])
  | "text" =>
    if truthyO m.text then [("text", m.text.getD "", 300)] else []
  | "updateRule" =>
    if truthyO m.text then [("text", m.text.getD "", 400)] else []
  | _ => []

/-- All over-limit findings (check 3 of validateCanvas): the whole check
runs only when an encoder is available (validate.js line 170). -/
def overLimitItems (enc : Option (String → Nat)) (c : Canvas) : List OverLimitItem :=
  match enc with
  | none => []
  | some e =>
    c.metadataSet.flatMap (fun p =>
      let nodeName := firstTruthy [p.2.name, p.2.title] (jsTake 8 p.1)
      (tokenChecksFor p.2).filterMap (fun ck =>
        let tokens := countTokensWith e ck.2.1
        if ck.2.2 < tokens then
          some { uid8 := jsTake 8 p.1, nodeType := p.2.type, nodeName := nodeName,
                 field := ck.1, tokens := tokens, limit := ck.2.2, over := tokens - ck.2.2 }
        else none))

/-- The items carried by one error entry of the report. -/
inductive VItems where
  | untrans (l : List UntransItem)
  | invref (l : List InvalidRefItem)
  | overlim (l : List OverLimitItem)
  deriving DecidableEq, Repr

/-- One entry of report.errors. -/
structure VError where
  type : String
  message : String
  items : VItems
  deriving DecidableEq, Repr

/-- The stats block of the report (validate.js lines 247-253). -/
structure VStats where
  untranslatedCount : Nat := 0
  invalidRefsCount : Nat := 0
  overLimitCount : Nat := 0
  totalNodes : Nat := 0
  variableCount : Nat := 0
  deriving DecidableEq, Repr

/-- The validation report. -/
structure ValidationReport where
  passed : Bool := true
  errors : List VError := []
  warnings : List String := []
  stats : VStats := {}
  deriving DecidableEq, Repr

/-- Embedding of validateCanvas (validate.js lines 72-255): the three
checks, the conditional error entries and the passed flag.  The Set size
of validRefs becomes the deduplicated length; enc is the possibly absent
token encoder. -/
def validateCanvas (enc : Option (String → Nat)) (c : Canvas) (sourceLang : String) :
    ValidationReport :=
  let untranslated := untransItems sourceLang c
  let invalidRefs := invalidRefItems c
  let overLimit := overLimitItems enc c
  let errors :=
    (if untranslated.isEmpty then [] else
      [{ type := "untranslated",
         message := toString untranslated.length ++ " fields contain untranslated " ++
                    sourceLang ++ " text",
         items := VItems.untrans untranslated : VError }]) ++
    (if invalidRefs.isEmpty then [] else
      [{ type := "invalid_refs",
         message := toString invalidRefs.length ++ " invalid variable references found",
         items := VItems.invref invalidRefs : VError }]) ++
    (if overLimit.isEmpty then [] else
      [{ type := "over_limit",
         message := toString overLimit.length ++ " fields exceed token limits",
         items := VItems.overlim overLimit : VError }])
  { passed := errors.isEmpty,
    errors := errors,
    warnings := [],
    stats :=
      { untranslatedCount := untranslated.length,
        invalidRefsCount := invalidRefs.length,
        overLimitCount := overLimit.length,
        totalNodes := c.metadataSet.length,
        variableCount := (validRefsList c).dedup.length } }

/-! ## Derived definitions used by the claim statements -/

/-- Every var-reference occurrence scanned by the reference-consistency
check, across all nodes and all four fields, in scan order. -/
def allRefOccurrences (c : Canvas) : List String :=
  c.metadataSet.flatMap (fun p => (refTextFields p.2).flatMap (fun t => scanVarRefs t))

/-- Formalization of claim C7 as stated: there are five fixed
increments, one per advanced-settings flag, such that the core-context
budget is 2000 plus the sum of the increments of the enabled flags. -/
def claimC7Statement : Prop :=
  ∃ c1 c2 c3 c4 c5 : Nat, ∀ a : AdvancedSettings,
    getCoreContextLimit (some a) =
      2000 + (if a.disableDynamicMemory then c1 else 0) +
      (if a.disableAutoPlotCompression then c2 else 0) +
      (if a.disableMacroPromptInjections then c3 else 0) +
      (if a.disableDefaultContentPolicy then c4 else 0) +
      (if a.disableDefaultSystemInstructions then c5 else 0)

/-! ## Concrete instances for counterexamples and witnesses -/

/-- A trivial language-instruction detector (never finds anything); the
theorems hold for every detector, witnesses instantiate it with this one. -/
def noDetect : String → LangInstr := fun _ => {}

/-- First original lorebook entry of the C1 counterexample. -/
def entryA1 : Entry := { key := some "alpha", text := some "first" }

/-- Second (trailing) original lorebook entry of the C1 counterexample. -/
def entryA2 : Entry := { key := some "beta", text := some "second" }

/-- The single translated lorebook entry of the C1 counterexample. -/
def entryB1 : Entry := { key := some "alpha tr", text := some "first tr" }

/-- Original lorebook node with two entries. -/
def c1Node : NodeMeta := { type := "lorebook", entries := some [entryA1, entryA2] }

/-- Translated item carrying a shorter entries array. -/
def c1Item : BatchItem := { uid := "u1", entries := some [entryB1] }

/-- Canvas of the C2 counterexample: one variable node whose initial
value is flagged English by the extractor heuristic. -/
def c2Canvas : Canvas :=
  { metadataSet := [("u1", { type := "variable", variableName := some "mood",
                             initialValue := some (JsVal.jstr "hello") })] }

/-- Translated batches of the C2 counterexample: the translator returns
a fresh initialValue and omits the initialValueIsEnglish flag. -/
def c2Batches : TranslatedBatches :=
  { «variables» := some [{ uid := "u1", initialValue := some (JsVal.jstr "bonjour") }] }

/-- An empty merge context. -/
def emptyCtx : Context := {}

/-- Canvas of the C3 witness: two text nodes. -/
def c3Canvas : Canvas :=
  { metadataSet := [("aa", { type := "text", text := some "hi there" }),
                    ("bb", { type := "text", text := some "stay put" })] }

/-- Batches of the C3 witness: only the first node has a counterpart. -/
def c3Batches : TranslatedBatches :=
  { content := some [{ uid := "aa", text := some "bonjour" }] }

/-- A found Korean language instruction, for the C4 witness. -/
def c4InstrKo : LangInstr := { found := true, lang := "ko", pattern := "한국어로 작성" }

/-- A found English language instruction, for the C4 witness. -/
def c4InstrEn : LangInstr := { found := true, lang := "en", pattern := "write in English" }

/-- Text containing the Korean directive once. -/
def c4TextKo : String := "스토리를 한국어로 작성 해주세요"

/-- Text containing the English directive. -/
def c4TextEn : String := "Always write in English please"

/-- Canvas of the C6 witness, invalid side: a var_Foo token and no
variable node at all. -/
def c6Canvas : Canvas :=
  { metadataSet :=
      [("n1", { type := "text", text := some ("see \x7b\x7bvar_Foo\x7d\x7d here") })] }

/-- The token of the C6 witness. -/
def c6Token : String := "\x7b\x7bvar_Foo\x7d\x7d"

/-- Canvas of the C6 witness, valid side: the same token next to a
variable node whose name matches it. -/
def c6CanvasB : Canvas :=
  { metadataSet :=
      [("v1", { type := "variable", variableName := some "Foo" }),
       ("n1", { type := "text", text := some ("see \x7b\x7bvar_Foo\x7d\x7d here") })] }

/-- A 501-character core context, one character past the truncation point. -/
def c8LongContext : String := String.mk (List.replicate 501 'a')

/-- Canvas of the C8 counterexample: one story node with the long context. -/
def c8Canvas : Canvas :=
  { metadataSet := [("s1", { type := "story", coreContext := some c8LongContext })] }

/-- Canvas of the C10 witness: a variable node without variableName but
with a name and a nonempty string initial value. -/
def c10Canvas : Canvas :=
  { metadataSet := [("x1", { type := "variable", name := some "Nick",
                             initialValue := some (JsVal.jstr "val") })] }

/-- Canvas of the C9 witness-free check: exercised only in examples. -/
def c9Canvas : Canvas :=
  { canvas := { canvasLanguage := some "ko" },
    metadataSet := [("u1", { type := "variable", variableName := some "mood",
                             initialValue := some (JsVal.jstr "hello"),
                             entries := some [entryA1] })] }

/-- First image of the C1 witness, with an untouched payload field. -/
def imgA1 : Image := { explain := some "img one", payload := "srcA" }

/-- Second (trailing) image of the C1 witness. -/
def imgA2 : Image := { explain := some "img two", payload := "srcB" }

/-- The single translated image projection of the C1 witness. -/
def timB1 : TImage := { explain := some "img one tr" }

/-- Image node with two images. -/
def c1NodeImg : NodeMeta := { type := "image", images := some [imgA1, imgA2] }

/-- Translated item carrying a shorter images array. -/
def c1ItemImg : BatchItem := { uid := "u2", images := some [timB1] }

/-- Variable node of the C2 witness. -/
def c2VarNode : NodeMeta :=
  { type := "variable", variableName := some "mood",
    initialValue := some (JsVal.jstr "hello") }

/-- Translated item that echoes the extractor fields, flag included, as
the pipeline instructs the translator to do. -/
def c2EchoItem : BatchItem :=
  { uid := "u1", variableName := some "humeur",
    initialValue := some (JsVal.jstr "hello"), initialValueIsEnglish := some true }


/-! ## Helper lemmas -/
theorem headMatches_iff (pat : List Char) : ∀ s : List Char,
    headMatches pat s = true ↔ ∃ r, s = pat ++ r := by
  induction pat with
  | nil => intro s; simp [headMatches]
  | cons p ps ih =>
    intro s
    cases s with
    | nil =>
      simp only [headMatches, List.cons_append]
      constructor
      · intro h; exact absurd h (by simp)
      · rintro ⟨r, h⟩; exact absurd h (by simp)
    | cons c cs =>
      simp only [headMatches, Bool.and_eq_true, beq_iff_eq, ih cs, List.cons_append,
        List.cons.injEq]
      constructor
      · rintro ⟨rfl, r, rfl⟩; exact ⟨r, rfl, rfl⟩
      · rintro ⟨r, rfl, rfl⟩; exact ⟨rfl, r, rfl⟩

theorem rfirst_finds (pat rep : List Char) (hp : pat ≠ []) :
    ∀ (s l1 l2 : List Char), s = l1 ++ (pat ++ l2) →
    ∃ p q, s = p ++ (pat ++ q) ∧ rfirst pat rep s = p ++ (rep ++ q) := by
  intro s
  induction s with
  | nil =>
    intro l1 l2 h
    exfalso
    cases l1 with
    | nil => cases pat with
      | nil => exact hp rfl
      | cons a b => simp at h
    | cons a b => simp at h
  | cons c cs ih =>
    intro l1 l2 h
    by_cases hm : headMatches pat (c :: cs) = true
    · obtain ⟨r, hr⟩ := (headMatches_iff pat (c :: cs)).1 hm
      refine ⟨[], r, by simpa using hr, ?_⟩
      simp only [rfirst, hm, if_true, List.nil_append]
      rw [hr, List.drop_left]
    · cases l1 with
      | nil =>
        exact absurd ((headMatches_iff pat (c :: cs)).2 ⟨l2, by simpa using h⟩) hm
      | cons d l1t =>
        have hc : c = d ∧ cs = l1t ++ (pat ++ l2) := by simpa using h
        obtain ⟨p, q, h1, h2⟩ := ih l1t l2 hc.2
        refine ⟨c :: p, q, by simp [h1], ?_⟩
        simp only [rfirst, hm, if_false, Bool.false_eq_true, List.cons_append]
        rw [h2]

theorem mergeImages_idem : ∀ (mi : List Image) (ti : List TImage),
    mergeImages (mergeImages mi ti) ti = mergeImages mi ti := by
  intro mi ti
  induction ti generalizing mi with
  | nil => cases mi <;> rfl
  | cons t ts ih =>
    cases mi with
    | nil => rfl
    | cons img imgs =>
      by_cases h : truthyO t.explain = true <;> simp [mergeImages, h, ih]

attribute [ext] NodeMeta

set_option linter.unreachableTactic false

set_option linter.unusedTactic false

theorem mergeNode_idem (m : NodeMeta) (t : BatchItem) (lang : String) :
    mergeNode (mergeNode m t lang) t lang = mergeNode m t lang := by
  apply NodeMeta.ext <;> simp only [mergeNode] <;>
    first
      | rfl
      | ((split <;> simp_all) <;> done)
      | ((cases ht : t.entries <;> cases hm : m.entries <;> simp [ht, hm]) <;> done)
      | ((cases ht : t.images <;> cases hm : m.images <;> simp [ht, hm, mergeImages_idem]) <;> done)

theorem mergeLoop_fst (f : String → Option BatchItem) (lang : String) :
    ∀ l : List (String × NodeMeta),
    (mergeLoop f lang l).1 = l.map (fun p =>
      match f p.1 with
      | none => p
      | some t => (p.1, mergeNode p.2 t lang)) := by
  intro l
  induction l with
  | nil => rfl
  | cons p rest ih =>
    obtain ⟨uid, m⟩ := p
    simp only [mergeLoop, List.map_cons]
    cases hf : f uid <;> simp [hf, ih]

theorem mergeLoop_skipped (f : String → Option BatchItem) (lang : String) :
    ∀ l : List (String × NodeMeta),
    (mergeLoop f lang l).2.2 = l.countP (fun p => (f p.1).isNone) := by
  intro l
  induction l with
  | nil => rfl
  | cons p rest ih =>
    obtain ⟨uid, m⟩ := p
    simp only [mergeLoop, List.countP_cons]
    cases hf : f uid <;> simp [hf, ih]

theorem mergeLoop_idem (f : String → Option BatchItem) (lang : String) :
    ∀ l : List (String × NodeMeta),
    (mergeLoop f lang ((mergeLoop f lang l).1)).1 = (mergeLoop f lang l).1 := by
  intro l
  induction l with
  | nil => rfl
  | cons p rest ih =>
    obtain ⟨uid, m⟩ := p
    cases hf : f uid <;> simp [mergeLoop, hf, ih, mergeNode_idem]

/-- C9: merging the same translated batches a second time into the
already-merged canvas reproduces the merged canvas exactly (the export
timestamp is an explicit input of the embedding, read equal on both
runs). -/
theorem mergeTranslations_idempotent (orig : Canvas) (tb : TranslatedBatches)
    (ctx : Context) (targetLang now : String) :
    (mergeTranslations (mergeTranslations orig tb ctx targetLang now).canvas
        tb ctx targetLang now).canvas =
      (mergeTranslations orig tb ctx targetLang now).canvas := by
  by_cases hc : ctx.tagCategorization.isSome = true <;>
    simp [mergeTranslations, Canvas.mk.injEq, CanvasInfo.mk.injEq, hc, mergeLoop_idem]

/-- C3: the merge never mutates the original (the embedding is a pure
function of it); every node whose uid has no translated counterpart is
reproduced unchanged in the merged metadataSet, and skipped counts
exactly the nodes without a counterpart. -/
theorem mergeTranslations_skips_untranslated (orig : Canvas) (tb : TranslatedBatches)
    (ctx : Context) (targetLang now : String) :
    ((mergeTranslations orig tb ctx targetLang now).canvas.metadataSet =
      orig.metadataSet.map (fun p =>
        match lookupTranslation tb p.1 with
        | none => p
        | some t => (p.1, mergeNode p.2 t targetLang))) ∧
    (∀ uid m, (uid, m) ∈ orig.metadataSet → lookupTranslation tb uid = none →
      (uid, m) ∈ (mergeTranslations orig tb ctx targetLang now).canvas.metadataSet) ∧
    (mergeTranslations orig tb ctx targetLang now).stats.skipped =
      orig.metadataSet.countP (fun p => (lookupTranslation tb p.1).isNone) := by
  refine ⟨by simp [mergeTranslations, mergeLoop_fst], ?_, ?_⟩
  · intro uid m hm hl
    simp only [mergeTranslations, mergeLoop_fst]
    have h2 := List.mem_map_of_mem (f := fun p : String × NodeMeta =>
      match lookupTranslation tb p.1 with
      | none => p
      | some t => (p.1, mergeNode p.2 t targetLang)) hm
    simpa [hl] using h2
  · simp [mergeTranslations, mergeLoop_skipped]

/-- C3 witness: in a concrete two-node canvas where only node aa has a
translated counterpart, node bb survives the merge byte-for-byte and is
the one skipped node. -/
theorem mergeTranslations_skips_untranslated_witness :
    lookupTranslation c3Batches "bb" = none ∧
    ("bb", ({ type := "text", text := some "stay put" } : NodeMeta)) ∈
      (mergeTranslations c3Canvas c3Batches emptyCtx "en" "2026-01-01").canvas.metadataSet ∧
    (mergeTranslations c3Canvas c3Batches emptyCtx "en" "2026-01-01").stats.skipped = 1 := by
  refine ⟨by decide, ?_, ?_⟩
  · exact (mergeTranslations_skips_untranslated c3Canvas c3Batches emptyCtx "en" "2026-01-01").2.1
      "bb" ({ type := "text", text := some "stay put" } : NodeMeta) (by decide) (by decide)
  · rw [(mergeTranslations_skips_untranslated c3Canvas c3Batches emptyCtx "en" "2026-01-01").2.2]
    decide

/-- C1 counterexample: merging a translated lorebook item whose entries
array is shorter than the original replaces the array wholesale; the
trailing original entry is dropped, not preserved as the claim states. -/
theorem c1_entries_counterexample :
    (mergeNode c1Node c1Item "en").entries = some [entryB1] ∧
    c1Node.entries = some [entryA1, entryA2] ∧
    ¬((mergeNode c1Node c1Item "en").entries = some [entryB1, entryA2]) := by
  refine ⟨by decide, by decide, by decide⟩

/-- C1 amended: lorebook entries are replaced wholesale by the translated
array whenever both sides carry one, while images are merged positionally
and index-aligned: each index present in both arrays has its explain
overwritten when the translated explain is truthy, and all surplus
original images are preserved unchanged. -/
theorem c1_amended (m : NodeMeta) (t : BatchItem) (lang : String) :
    (t.entries.isSome = true → m.entries.isSome = true →
      (mergeNode m t lang).entries = t.entries) ∧
    (∀ mi ti, m.images = some mi → t.images = some ti →
      (mergeNode m t lang).images = some (mergeImages mi ti)) ∧
    (∀ (mi : List Image) (ti : List TImage) (i : Nat),
      (mergeImages mi ti)[i]? =
        match mi[i]?, ti[i]? with
        | some img, some tim =>
          some (if truthyO tim.explain = true then { img with explain := tim.explain } else img)
        | some img, none => some img
        | none, _ => none) := by
  refine ⟨?_, ?_, ?_⟩
  · intro h1 h2; simp [mergeNode, h1, h2]
  · intro mi ti hm ht; simp [mergeNode, hm, ht]
  · intro mi ti i
    induction mi generalizing ti i with
    | nil => cases ti <;> simp [mergeImages]
    | cons img imgs ih =>
      cases ti with
      | nil => cases h : (img :: imgs)[i]? <;> simp [mergeImages, h]
      | cons tim tims =>
        cases i with
        | zero => by_cases h : truthyO tim.explain = true <;> simp [mergeImages, h]
        | succ n => simp [mergeImages, ih]

/-- C1 witness: concrete wholesale entries replacement, and a concrete
positional image merge where the trailing original image survives. -/
theorem c1_amended_witness :
    (mergeNode c1Node c1Item "en").entries = c1Item.entries ∧
    (mergeNode c1NodeImg c1ItemImg "en").images = some (mergeImages [imgA1, imgA2] [timB1]) ∧
    (mergeImages [imgA1, imgA2] [timB1])[1]? = some imgA2 := by
  refine ⟨(c1_amended c1Node c1Item "en").1 (by decide) (by decide),
          (c1_amended c1NodeImg c1ItemImg "en").2.1 [imgA1, imgA2] [timB1] (by decide) (by decide),
          ?_⟩
  rw [(c1_amended c1NodeImg c1ItemImg "en").2.2 [imgA1, imgA2] [timB1] 1]
  decide

/-- C2 counterexample: the extractor flags the initial value hello as
English, yet a translated item that carries a new initialValue while
omitting the initialValueIsEnglish flag overwrites it during merge, so
the merged value is not byte-identical to the original. -/
theorem c2_counterexample :
    ((extractCanvas noDetect c2Canvas).batches.«variables».map
        (fun n => (n.uid, n.initialValueIsEnglish))) = [("u1", some true)] ∧
    ((mergeTranslations c2Canvas c2Batches emptyCtx "en" "t").canvas.metadataSet.lookup "u1").map
        NodeMeta.initialValue = some (some (JsVal.jstr "bonjour")) ∧
    (c2Canvas.metadataSet.lookup "u1").map NodeMeta.initialValue =
      some (some (JsVal.jstr "hello")) := by
  refine ⟨by decide, by decide, by decide⟩

/-- C2 amended: merge preserves a node's initialValue whenever the
translated item either omits initialValue or carries the
initialValueIsEnglish flag set true; in particular an extractor-flagged
English value survives whenever the translator echoes the item's flag,
which is what the pipeline instructs it to do. -/
theorem c2_amended (m : NodeMeta) (t : BatchItem) (lang : String)
    (h : t.initialValue = none ∨ t.initialValueIsEnglish = some true) :
    (mergeNode m t lang).initialValue = m.initialValue := by
  rcases h with h | h <;> simp [mergeNode, h, truthyB]

/-- C2 witness: an echoed item with the flag intact leaves the concrete
English initial value untouched. -/
theorem c2_amended_witness :
    (c2EchoItem.initialValue = none ∨ c2EchoItem.initialValueIsEnglish = some true) ∧
    (mergeNode c2VarNode c2EchoItem "en").initialValue = c2VarNode.initialValue := by
  exact ⟨Or.inr (by decide), c2_amended c2VarNode c2EchoItem "en" (Or.inr (by decide))⟩

/-- C4: the merge-time language-instruction transform leaves any text
with a detected English directive unchanged, and for a detected
directive in any other language it replaces exactly the matched pattern
substring with the canonical directive phrase of the target language. -/
theorem transformLanguageInstruction_spec (text : String) (li : LangInstr) (targetLang : String) :
    (li.lang = "en" → transformLanguageInstruction text (some li) targetLang = text) ∧
    (∀ ti pre post, li.found = true → ¬(li.lang = "en") →
      langInstructionMap targetLang = some ti → li.pattern ≠ "" →
      text.data = pre ++ (li.pattern.data ++ post) →
      ∃ pre2 post2, text.data = pre2 ++ (li.pattern.data ++ post2) ∧
        (transformLanguageInstruction text (some li) targetLang).data =
          pre2 ++ (ti.instruction.data ++ post2)) := by
  constructor
  · intro h
    unfold transformLanguageInstruction
    by_cases h0 : (text == "") = true
    · simp [h0]
    · cases hf : li.found <;> simp [h0, hf, h]
  · intro ti pre post hf hen hmap hpat hocc
    have hpd : li.pattern.data ≠ [] := by
      intro hd
      apply hpat
      cases hq : li.pattern with
      | mk l =>
        rw [hq] at hd
        simp at hd
        subst hd
        rfl
    have hne : (text == "") ≠ true := by
      intro hh
      have hx : text = "" := by simpa using hh
      rw [hx] at hocc
      cases pre <;> cases hq : li.pattern.data <;> simp_all
    have hres : transformLanguageInstruction text (some li) targetLang =
        replaceFirst text li.pattern ti.instruction := by
      unfold transformLanguageInstruction
      simp [hne, hf, hmap, show (li.lang == "en") = false by simpa using hen]
    obtain ⟨p, q, h1, h2⟩ :=
      rfirst_finds li.pattern.data ti.instruction.data hpd text.data pre post hocc
    refine ⟨p, q, h1, ?_⟩
    rw [hres]
    exact h2

/-- C4 witness: a Korean directive inside concrete text is rewritten to
the Japanese canonical phrase in place, and a concrete English directive
text is returned verbatim for a Korean target. -/
theorem transformLanguageInstruction_spec_witness :
    transformLanguageInstruction c4TextEn (some c4InstrEn) "ko" = c4TextEn ∧
    (∃ pre2 post2, c4TextKo.data = pre2 ++ (c4InstrKo.pattern.data ++ post2) ∧
      (transformLanguageInstruction c4TextKo (some c4InstrKo) "ja").data =
        pre2 ++ (("日本語で書く" : String).data ++ post2)) := by
  constructor
  · exact (transformLanguageInstruction_spec c4TextEn c4InstrEn "ko").1 (by decide)
  · exact (transformLanguageInstruction_spec c4TextKo c4InstrKo "ja").2
      { instruction := "日本語で書く",
        alternatives := ["日本語で出力", "日本語で作成", "in Japanese", "using Japanese"] }
      ("스토리를 " : String).data (" 해주세요" : String).data
      (by decide) (by decide) (by decide) (by decide) (by decide)

/-- C5: the report passes exactly when all three checks produce zero
findings, and an absent tokenizer makes the token-budget check
contribute no findings at all (its absence is not itself a failure). -/
theorem validateCanvas_passed_iff (enc : Option (String → Nat)) (c : Canvas) (sourceLang : String) :
    ((validateCanvas enc c sourceLang).passed = true ↔
      (untransItems sourceLang c = [] ∧ invalidRefItems c = [] ∧ overLimitItems enc c = [])) ∧
    overLimitItems none c = [] := by
  constructor
  · by_cases h1 : untransItems sourceLang c = [] <;>
      by_cases h2 : invalidRefItems c = [] <;>
      by_cases h3 : overLimitItems enc c = [] <;>
      simp [validateCanvas, h1, h2, h3]
  · rfl

/-- C7 counterexample: no assignment of five fixed per-flag increments
matches getCoreContextLimit, because enabling
disableDefaultSystemInstructions alone adds nothing while enabling it
together with both cue flags adds 1500. -/
theorem getCoreContextLimit_not_five_fixed_increments : ¬claimC7Statement := by
  rintro ⟨c1, c2, c3, c4, c5, h⟩
  have h1 := h { disableDefaultSystemInstructions := true }
  have h2 := h { disableDefaultSystemInstructions := true,
                 disableNarrationCue := true, disableDialogueCue := true }
  simp [getCoreContextLimit] at h1 h2
  omega

/-- C7 amended: the core-context budget is exactly 2000 with no
advanced settings; the four memory, plot-compression, macro-injection
and content-policy flags each add a fixed increment (800, 1200, 1200,
800), while disableDefaultSystemInstructions adds 1500 when both cue
flags are also disabled, 1000 when exactly one is, and nothing
otherwise. -/
theorem getCoreContextLimit_characterization :
    getCoreContextLimit none = 2000 ∧
    getCoreContextLimit (some {}) = 2000 ∧
    ∀ a : AdvancedSettings,
      getCoreContextLimit (some a) =
        2000 + (if a.disableDynamicMemory then 800 else 0) +
        (if a.disableAutoPlotCompression then 1200 else 0) +
        (if a.disableMacroPromptInjections then 1200 else 0) +
        (if a.disableDefaultContentPolicy then 800 else 0) +
        (if a.disableDefaultSystemInstructions then
           (if a.disableNarrationCue && a.disableDialogueCue then 1500
            else if a.disableNarrationCue || a.disableDialogueCue then 1000
            else 0)
         else 0) := by
  refine ⟨rfl, rfl, ?_⟩
  intro a
  obtain ⟨f1, f2, f3, f4, f5, f6, f7⟩ := a
  cases f1 <;> cases f2 <;> cases f3 <;> cases f4 <;> cases f5 <;> cases f6 <;> cases f7 <;> rfl

theorem jsLen_append (a b : String) : jsLen (a ++ b) = jsLen a + jsLen b := by
  simp [jsLen]

theorem jsLen_jsTake (n : Nat) (s : String) : jsLen (jsTake n s) = min n (jsLen s) := by
  simp [jsLen, jsTake]

theorem storySummaryGo_le (l : List (String × NodeMeta)) : jsLen (storySummaryGo l) ≤ 503 := by
  induction l with
  | nil => simp [storySummaryGo, jsLen]
  | cons p rest ih =>
    obtain ⟨uid, m⟩ := p
    by_cases h : (m.type == "story" && truthyO m.coreContext) = true
    · simp only [storySummaryGo, h, if_true]
      rw [jsLen_append, jsLen_jsTake]
      split <;> simp [jsLen] <;> omega
    · simpa [storySummaryGo, h] using ih

theorem storySummaryGo_first :
    ∀ (pre : List (String × NodeMeta)) (uid : String) (m : NodeMeta)
      (post : List (String × NodeMeta)),
    (∀ q ∈ pre, ¬(q.2.type = "story" ∧ truthyO q.2.coreContext = true)) →
    m.type = "story" → truthyO m.coreContext = true →
    storySummaryGo (pre ++ (uid, m) :: post) =
      jsTake 500 (m.coreContext.getD "") ++
        (if 500 < jsLen (m.coreContext.getD "") then "..." else "") := by
  intro pre
  induction pre with
  | nil =>
    intro uid m post hpre ht hc
    simp [storySummaryGo, ht, hc]
  | cons q pre2 ih =>
    intro uid m post hpre ht hc
    obtain ⟨quid, qm⟩ := q
    have hq := hpre (quid, qm) (List.mem_cons_self _ _)
    have hcond : (qm.type == "story" && truthyO qm.coreContext) = false := by
      by_cases h1 : qm.type = "story"
      · cases h2 : truthyO qm.coreContext
        · simp [h2]
        · exact absurd ⟨h1, h2⟩ hq
      · simp [h1]
    simp only [List.cons_append, storySummaryGo, hcond, Bool.false_eq_true, if_false]
    exact ih uid m post (fun r hr => hpre r (List.mem_cons_of_mem _ hr)) ht hc

set_option maxRecDepth 16384

/-- C8 counterexample: a 501-character story core context yields a
503-character summary (500 characters plus the three-dot ellipsis), so
the summary does exceed 500 characters. -/
theorem storySummary_exceeds_500 :
    jsLen (extractCanvas noDetect c8Canvas).storySummary = 503 ∧
    500 < jsLen (extractCanvas noDetect c8Canvas).storySummary := by
  constructor <;> decide

/-- C8 amended: the summary equals the first story node's truthy
coreContext truncated to 500 characters, with an ellipsis appended if
and only if the context is longer than 500 characters; its length never
exceeds 503 (not 500: the ellipsis is appended after truncation). -/
theorem extractCanvas_storySummary_spec (detect : String → LangInstr) (c : Canvas) :
    jsLen (extractCanvas detect c).storySummary ≤ 503 ∧
    (∀ pre uid m post, c.metadataSet = pre ++ (uid, m) :: post →
      (∀ q ∈ pre, ¬(q.2.type = "story" ∧ truthyO q.2.coreContext = true)) →
      m.type = "story" → truthyO m.coreContext = true →
      (extractCanvas detect c).storySummary =
        jsTake 500 (m.coreContext.getD "") ++
          (if 500 < jsLen (m.coreContext.getD "") then "..." else "")) := by
  constructor
  · exact storySummaryGo_le c.metadataSet
  · intro pre uid m post hsplit hpre ht hc
    show storySummaryGo c.metadataSet = _
    rw [hsplit]
    exact storySummaryGo_first pre uid m post hpre ht hc

/-- C8 witness: the amended statement evaluated on the concrete
501-character canvas. -/
theorem extractCanvas_storySummary_spec_witness :
    jsLen (extractCanvas noDetect c8Canvas).storySummary ≤ 503 ∧
    (extractCanvas noDetect c8Canvas).storySummary =
      jsTake 500 c8LongContext ++ "..." := by
  constructor
  · exact (extractCanvas_storySummary_spec noDetect c8Canvas).1
  · have h := (extractCanvas_storySummary_spec noDetect c8Canvas).2
      [] "s1" { type := "story", coreContext := some c8LongContext } []
      (by decide) (by simp) (by decide) (by decide)
    rw [h]
    decide

theorem countP_invalid_map (c : Canvas) (u ty nm : String) (tok : String) (l : List String) :
    ((l.filter (fun ref => !isValidRef c ref)).map (fun ref =>
      ({ uid8 := u, nodeType := ty, nodeName := nm, ref := ref } : InvalidRefItem))).countP
        (fun it => it.ref == tok) =
    if isValidRef c tok then 0 else l.countP (fun r => r == tok) := by
  induction l with
  | nil => cases isValidRef c tok <;> simp
  | cons r rs ih =>
    by_cases ht : r = tok
    · subst ht
      by_cases hv : isValidRef c r = true
      · simp [List.filter_cons, hv, ih, List.countP_cons]
      · simp [List.filter_cons, hv, ih, List.countP_cons]
    · have hbt : (r == tok) = false := by simpa using ht
      by_cases hv : isValidRef c r = true <;>
        simp [List.filter_cons, hv, List.countP_cons, ih, hbt]

theorem countP_invalid_node (c : Canvas) (u ty nm : String) (tok : String) :
    ∀ ts : List String,
    ((ts.flatMap (fun t => ((scanVarRefs t).filter (fun ref => !isValidRef c ref)).map
        (fun ref => ({ uid8 := u, nodeType := ty, nodeName := nm, ref := ref } : InvalidRefItem)))).countP
      (fun it => it.ref == tok)) =
    if isValidRef c tok then 0 else (ts.flatMap (fun t => scanVarRefs t)).countP (fun r => r == tok) := by
  intro ts
  induction ts with
  | nil => cases isValidRef c tok <;> simp
  | cons t rest ih =>
    simp only [List.flatMap_cons, List.countP_append, ih, countP_invalid_map]
    cases isValidRef c tok <;> simp

theorem countP_ref_invalidRefItems (c : Canvas) (tok : String) :
    (invalidRefItems c).countP (fun it => it.ref == tok) =
    if isValidRef c tok then 0 else (allRefOccurrences c).countP (fun r => r == tok) := by
  unfold invalidRefItems allRefOccurrences
  induction c.metadataSet with
  | nil => cases isValidRef c tok <;> simp
  | cons p rest ih =>
    simp only [List.flatMap_cons, List.countP_append, ih, countP_invalid_node]
    cases isValidRef c tok <;> simp

/-- C6: an occurrence of a var token that matches no variable name,
neither case-preserved nor case-insensitively, produces exactly as many
invalid_refs findings as it has occurrences (hence exactly one finding
for exactly one occurrence), and a token that does match produces no
finding at all. -/
theorem invalidRefs_exactly_one (c : Canvas) (tok : String) :
    (isValidRef c tok = false →
      (allRefOccurrences c).countP (fun r => r == tok) = 1 →
      (invalidRefItems c).countP (fun it => it.ref == tok) = 1) ∧
    (isValidRef c tok = true →
      (invalidRefItems c).countP (fun it => it.ref == tok) = 0) := by
  constructor
  · intro hv h1
    rw [countP_ref_invalidRefItems, hv]
    simpa using h1
  · intro hv
    rw [countP_ref_invalidRefItems, hv]
    simp

/-- C6 witness: a concrete document with one var_Foo occurrence and no
variable node gets exactly one finding for that token, and the same
document extended with a matching variable node gets none. -/
theorem invalidRefs_exactly_one_witness :
    (isValidRef c6Canvas c6Token = false ∧
     (allRefOccurrences c6Canvas).countP (fun r => r == c6Token) = 1 ∧
     (invalidRefItems c6Canvas).countP (fun it => it.ref == c6Token) = 1) ∧
    (isValidRef c6CanvasB c6Token = true ∧
     (invalidRefItems c6CanvasB).countP (fun it => it.ref == c6Token) = 0) := by
  refine ⟨⟨by decide, by decide,
           (invalidRefs_exactly_one c6Canvas c6Token).1 (by decide) (by decide)⟩,
          ⟨by decide, (invalidRefs_exactly_one c6CanvasB c6Token).2 (by decide)⟩⟩

theorem categorizeCore_uid (chars : List String) (detect : String → LangInstr)
    (uid : String) (m : NodeMeta) :
    (categorizeCore chars detect uid m).2.uid = uid := by
  simp only [categorizeCore, baseNode]
  repeat' first
    | split
    | simp only [apply_ite BatchItem.uid]
  all_goals rfl

theorem categorizeNode_uid (chars : List String) (detect : String → LangInstr)
    (uid : String) (m : NodeMeta) (b : String) (n : BatchItem)
    (h : categorizeNode chars detect uid m = some (b, n)) : n.uid = uid := by
  have huid := categorizeCore_uid chars detect uid m
  unfold categorizeNode at h
  split at h
  · exact absurd h (by simp)
  · rename_i b2 node heq
    split at h
    · simp only [Option.some.injEq, Prod.mk.injEq] at h
      rw [← h.2]
      rw [heq] at huid
      exact huid
    · exact absurd h (by simp)

theorem bindBatch_eq_some (b : String) (r : Option (String × BatchItem)) (n : BatchItem)
    (h : bindBatch b r = some n) : r = some (b, n) := by
  cases r with
  | none => exact absurd h (by simp [bindBatch])
  | some pr =>
    obtain ⟨b2, n2⟩ := pr
    by_cases hb : (b2 == b) = true
    · have hbeq : b2 = b := by simpa using hb
      have hn : n2 = n := by simpa [bindBatch, hb] using h
      rw [hbeq, hn]
    · exact absurd h (by simp [bindBatch, hb])

theorem categorizeNode_var_none (chars : List String) (detect : String → LangInstr)
    (uid : String) (m : NodeMeta) (ht : m.type = "variable") (hv : m.variableName = none) :
    categorizeNode chars detect uid m = none := by
  simp [categorizeNode, categorizeCore, ht, hv, truthyO]

theorem countP_le_one_unique {α : Type} (P : α → Bool) :
    ∀ (l : List α), l.countP P ≤ 1 → ∀ a b, a ∈ l → b ∈ l →
      P a = true → P b = true → a = b := by
  intro l
  induction l with
  | nil => intro _ a b ha; exact absurd ha (by simp)
  | cons x xs ih =>
    intro hc a b ha hb hpa hpb
    rw [List.countP_cons] at hc
    rcases List.mem_cons.1 ha with rfl | ha2
    · rcases List.mem_cons.1 hb with rfl | hb2
      · rfl
      · exfalso
        have h1 : 0 < xs.countP P := List.countP_pos_iff.2 ⟨b, hb2, hpb⟩
        rw [if_pos hpa] at hc
        omega
    · rcases List.mem_cons.1 hb with rfl | hb2
      · exfalso
        have h1 : 0 < xs.countP P := List.countP_pos_iff.2 ⟨a, ha2, hpa⟩
        rw [if_pos hpb] at hc
        omega
      · have h1 : 0 < xs.countP P := List.countP_pos_iff.2 ⟨a, ha2, hpa⟩
        exact ih (by omega) a b ha2 hb2 hpa hpb

/-- C10: a variable node without a variableName field is assigned to no
batch by extractCanvas, even when it carries a name, a title or a
nonempty string initialValue: no item of any of the six batches bears
its uid (the uid-count hypothesis states uniqueness of that key in
metadataSet, which JS objects guarantee). -/
theorem variable_without_name_in_no_batch (detect : String → LangInstr) (c : Canvas)
    (uid : String) (m : NodeMeta)
    (hmem : (uid, m) ∈ c.metadataSet)
    (htype : m.type = "variable")
    (hvn : m.variableName = none)
    (huniq : c.metadataSet.countP (fun p => p.1 == uid) = 1) :
    ∀ item : BatchItem,
      (item ∈ (extractCanvas detect c).batches.storyCore ∨
       item ∈ (extractCanvas detect c).batches.«variables» ∨
       item ∈ (extractCanvas detect c).batches.characters ∨
       item ∈ (extractCanvas detect c).batches.characterText ∨
       item ∈ (extractCanvas detect c).batches.content ∨
       item ∈ (extractCanvas detect c).batches.system) →
      item.uid ≠ uid := by
  intro item hin heq
  have hex : ∃ p, p ∈ c.metadataSet ∧
      ∃ b2, categorizeNode (charNames c) detect p.1 p.2 = some (b2, item) := by
    simp only [extractCanvas, extractBatches] at hin
    rcases hin with h | h | h | h | h | h <;>
    · obtain ⟨p, hp, hbb⟩ := List.mem_filterMap.1 h
      exact ⟨p, hp, _, bindBatch_eq_some _ _ _ hbb⟩
  obtain ⟨p, hp, b2, hcat⟩ := hex
  have hpuid : item.uid = p.1 := categorizeNode_uid _ _ _ _ _ _ hcat
  have hpeq : p = (uid, m) := by
    apply countP_le_one_unique (fun q : String × NodeMeta => q.1 == uid) c.metadataSet
      (le_of_eq huniq) p (uid, m) hp hmem
    · rw [← hpuid, heq]; simp
    · simp
  rw [hpeq] at hcat
  rw [categorizeNode_var_none (charNames c) detect uid m htype hvn] at hcat
  exact Option.noConfusion hcat

/-- C10 witness: the concrete variable node x1 carrying a name and a
nonempty string initial value but no variableName appears in none of the
six batches. -/
theorem variable_without_name_in_no_batch_witness :
    ("x1", ({ type := "variable", name := some "Nick",
              initialValue := some (JsVal.jstr "val") } : NodeMeta)) ∈ c10Canvas.metadataSet ∧
    (∀ item : BatchItem,
      (item ∈ (extractCanvas noDetect c10Canvas).batches.storyCore ∨
       item ∈ (extractCanvas noDetect c10Canvas).batches.«variables» ∨
       item ∈ (extractCanvas noDetect c10Canvas).batches.characters ∨
       item ∈ (extractCanvas noDetect c10Canvas).batches.characterText ∨
       item ∈ (extractCanvas noDetect c10Canvas).batches.content ∨
       item ∈ (extractCanvas noDetect c10Canvas).batches.system) →
      item.uid ≠ "x1") := by
  refine ⟨by decide, ?_⟩
  exact variable_without_name_in_no_batch noDetect c10Canvas "x1"
    ({ type := "variable", name := some "Nick", initialValue := some (JsVal.jstr "val") })
    (by decide) (by decide) (by decide) (by decide)

/-- C5 witness: a concrete fully-translated canvas with no tokenizer
passes, with all three finding lists empty. -/
theorem validateCanvas_passed_iff_witness :
    (validateCanvas none c3Canvas "ko").passed = true ∧
    untransItems "ko" c3Canvas = [] ∧ invalidRefItems c3Canvas = [] ∧
    overLimitItems none c3Canvas = [] := by
  have h := (validateCanvas_passed_iff none c3Canvas "ko").1.2 ⟨by decide, by decide, rfl⟩
  exact ⟨h, by decide, by decide, rfl⟩
